import Mathlib

/-!
Shallow embedding of the primitive-arbitrary layer of the jsverify
property-based testing library (`src/lib/primitive.js`), together with
proofs about its generators and shrinkers.

JavaScript numbers are modelled as `ℤ` where the code only ever handles
integers (the integer and nat arbitraries, list indices, date time values)
and as `ℚ` for the floating-point `number` arbitrary.  A generator is
modelled as a function of the ambient size hint and of an explicit random
seed; randomness is made explicit so that properties can quantify over
every possible draw.
-/

/-- Modelled from the spec: the random source collaborator
`sample(min, max) -> integer` with inclusive bounds (`src/lib/random.js` is
not among the sources).  The seed `r` selects `min + (r mod (max - min + 1))`;
as `r` ranges over `ℕ` this covers `[min, max]` exactly (for `min ≤ max`). -/
def random (lo hi : ℤ) (r : ℕ) : ℤ := lo + (r : ℤ) % (hi - lo + 1)

/-- Modelled from the spec: the random source collaborator
`sampleFloat(min, max) -> real`, over `ℚ` with a seed `r ∈ [0, 1]`:
the value is `min + (max - min) * r`. -/
def randomNumber (lo hi r : ℚ) : ℚ := lo + (hi - lo) * r

/-- Modelled from the spec: `utils.div2`, integer halving `a/2`
(integer division; `src/lib/utils.js` is not among the sources). -/
def div2 (n : ℕ) : ℕ := n / 2

/-- Modelled from the spec: a shrinker is a function from a value to the
finite ordered list of its shrink candidates.  `shrink.bless` wraps such a
function unchanged (`src/lib/shrink.js` is not among the sources). -/
def Shrinker (T : Type) : Type := T → List T

/-- Modelled from the spec: `shrink.noop`, the shrinker with no candidates. -/
def Shrinker.noop {T : Type} : Shrinker T := fun _ => []

/-- Modelled from the spec: `shrinker.isomap(to, from)` converts a `U`
counterexample back to `T` with `fro`, reuses the `T` shrinker, and converts
the resulting candidates back to `U` with `f`. -/
def Shrinker.isomap {T U : Type} (s : Shrinker T) (f : T → U) (fro : U → T) : Shrinker U :=
  fun u => (s (fro u)).map f

/-- Modelled from the spec: a generator is a function from the ambient size
hint and an explicit random seed of type `ρ` to a value
(`generator.bless` wraps such a function unchanged). -/
def Generator (ρ T : Type) : Type := ℕ → ρ → T

/-- Modelled from the spec: `generator.map` post-composes a generator with a
conversion function. -/
def Generator.map {ρ T U : Type} (g : Generator ρ T) (f : T → U) : Generator ρ U :=
  fun size r => f (g size r)

/-- An arbitrary: the generator/shrinker pair.  The `show` component is
omitted: it is a pure diagnostic renderer owned by a collaborator and no
property here concerns it. -/
structure Arbitrary (ρ T : Type) where
  generator : Generator ρ T
  shrink : Shrinker T

/-- The JavaScript falsy-or `maxsize || size` as applied to an optional
numeric bound in `primitive.js`: an absent (`undefined`) or zero bound
falls back to the ambient size hint. -/
def jsOr {R : Type} [Zero R] [DecidableEq R] (m : Option R) (s : R) : R :=
  match m with
  | none => s
  | some v => if v = 0 then s else v

/-- The `numeric` combinator's retarget function `to(x) = Math.abs(x) + minsize`
(`primitive.js` line 26). -/
def numericTo {R : Type} [LinearOrderedCommRing R] (minsize x : R) : R := |x| + minsize

/-- The `numeric` combinator's inverse `from(x) = x - minsize`
(`primitive.js` line 29). -/
def numericFrom {R : Type} [LinearOrderedCommRing R] (minsize x : R) : R := x - minsize

/-- The two-argument branch of the `numeric` rescaling combinator
(`primitive.js` lines 24–37): compute `span = maxsize - minsize`, obtain
`impl(span)`, and retarget its generator with `map(to)` and its shrinker
with `isomap(to, from)`. -/
def numeric2 {ρ R : Type} [LinearOrderedCommRing R]
    (impl : Option R → Arbitrary ρ R) (minsize maxsize : R) : Arbitrary ρ R :=
  let arb := impl (some (maxsize - minsize))
  { generator := arb.generator.map (numericTo minsize),
    shrink := arb.shrink.isomap (numericTo minsize) (numericFrom minsize) }

/-- The integer generator (`primitive.js` lines 55–58):
`size = maxsize || size`, then `random(-size, size)`. -/
def integerGenerator (maxsize : Option ℤ) : Generator ℕ ℤ :=
  fun size r =>
    let s := jsOr maxsize (size : ℤ)
    random (-s) s r

/-- The loop of the integer shrinker (`primitive.js` lines 67–72): while
`j < i` push `j` and `-j`, then halve the step `k` (floored at 1) and
advance `j` by it. -/
def integerShrinkLoop (i j k : ℕ) : List ℤ :=
  if _h : j < i then
    (j : ℤ) :: -(j : ℤ) :: integerShrinkLoop i (j + max (div2 k) 1) (max (div2 k) 1)
  else []
termination_by i - j
decreasing_by
  have h1 : 1 ≤ max (div2 k) 1 := Nat.le_max_right _ _
  omega

/-- The integer shrinker (`primitive.js` lines 59–75): `i := Math.abs(i)`;
if `i` is zero there are no candidates, otherwise `[0]` followed by the loop
started at `j = div2 i`, `k = max j 1`. -/
def integerShrink : Shrinker ℤ := fun i0 =>
  let i := i0.natAbs
  if i = 0 then []
  else 0 :: integerShrinkLoop i (div2 i) (max (div2 i) 1)

/-- The integer `impl` wrapped by `numeric` (`primitive.js` lines 53–79). -/
def integerImpl (maxsize : Option ℤ) : Arbitrary ℕ ℤ :=
  { generator := integerGenerator maxsize, shrink := integerShrink }

/-- The nat generator (`primitive.js` lines 91–94):
`size = maxsize || size`, then `random(0, size)`. -/
def natGenerator (maxsize : Option ℤ) : Generator ℕ ℤ :=
  fun size r => random 0 (jsOr maxsize (size : ℤ)) r

/-- The loop of the nat shrinker (`primitive.js` lines 99–103): while
`j < i` push `j`, then halve the step `k` (floored at 1) and advance `j`
by it. -/
def natShrinkLoop (i j k : ℕ) : List ℕ :=
  if _h : j < i then
    j :: natShrinkLoop i (j + max (div2 k) 1) (max (div2 k) 1)
  else []
termination_by i - j
decreasing_by
  have h1 : 1 ≤ max (div2 k) 1 := Nat.le_max_right _ _
  omega

/-- The nat shrinker (`primitive.js` lines 95–105): the loop started at
`j = div2 i`, `k = max j 1`, with no leading `0` and no negations. -/
def natShrink : Shrinker ℕ := fun i =>
  natShrinkLoop i (div2 i) (max (div2 i) 1)

/-- The number generator (`primitive.js` lines 121–124):
`size = maxsize || size`, then `random.number(-size, size)`. -/
def numberGenerator (maxsize : Option ℚ) : Generator ℚ ℚ :=
  fun size r =>
    let s := jsOr maxsize ((size : ℕ) : ℚ)
    randomNumber (-s) s r

/-- The number shrinker (`primitive.js` lines 125–131): `[0, x/2, -x/2]`
above the `1e-6` epsilon, nothing at or below it. -/
def numberShrink : Shrinker ℚ := fun x =>
  if |x| > 1 / 1000000 then [0, x / 2, -x / 2] else []

/-- The number `impl` wrapped by `numeric` (`primitive.js` lines 119–134). -/
def numberImpl (maxsize : Option ℚ) : Arbitrary ℚ ℚ :=
  { generator := numberGenerator maxsize, shrink := numberShrink }

/-- Truncation toward zero of a rational, as ECMAScript `ToInteger`
performs on a finite number. -/
def ratTrunc (q : ℚ) : ℤ := if 0 ≤ q then ⌊q⌋ else ⌈q⌉

/-- Model of the ECMAScript `TimeClip` operation used by the `Date`
constructor: a finite number within ±8.64e15 milliseconds of the epoch is
truncated toward zero to an integer time value; anything else produces an
Invalid Date (modelled as `none`). -/
def timeClip (q : ℚ) : Option ℤ := if |q| ≤ 8640000000000000 then some (ratTrunc q) else none

/-- `toDate` of the bounded `datetime` (`primitive.js` lines 186–188):
`new Date(x)` on a finite number.  A JavaScript date is modelled by its
internal time value, an integer count of milliseconds, with `none` for an
Invalid Date. -/
def jsToDate (x : ℚ) : Option ℤ := timeClip x

/-- `fromDate`/`getTime` (`primitive.js` lines 189–191): the date's numeric
epoch-millisecond form; `none` models the NaN of an Invalid Date. -/
def jsGetTime (d : Option ℤ) : Option ℚ := d.map (fun n => (n : ℚ))

/-- `new Date(x)` on a possibly-NaN numeric form (`none` models NaN). -/
def jsDateOfNum (x : Option ℚ) : Option ℤ := x.bind timeClip

/-- The fixed reference epoch of the default datetime
(`primitive.js` line 178). -/
def datetimeConst : ℤ := 1416499879495

/-- The generator of the bounded `datetime(from, to)` (`primitive.js`
lines 185–200): both endpoints are converted to their numeric forms, a
two-argument `number` arbitrary is built over them, and its generator is
mapped through `toDate`. -/
def datetimeBoundedGenerator (f t : ℤ) : Generator ℚ (Option ℤ) :=
  ((numeric2 numberImpl (f : ℚ) (t : ℚ)).generator).map jsToDate

/-- The generator of the default unbounded `datetime` (`primitive.js`
lines 201–212): the default `number` generator mapped through
`toDate(x) = new Date(x * 768000000 + datetimeConst)`. -/
def datetimeDefaultGenerator : Generator ℚ (Option ℤ) :=
  (numberGenerator none).map (fun x => jsToDate (x * 768000000 + (datetimeConst : ℚ)))

/-- The shrinker of the default unbounded `datetime`
(`primitive.js` line 209): `shrink.noop`. -/
def datetimeDefaultShrink : Shrinker (Option ℤ) := Shrinker.noop

/-- JavaScript `Array.prototype.indexOf` accumulator: the index of the
first occurrence, or `-1` when absent. -/
def jsIndexOfAux {α : Type} [DecidableEq α] (x : α) : List α → ℤ → ℤ
  | [], _ => -1
  | a :: rest, n => if a = x then n else jsIndexOfAux x rest (n + 1)

/-- JavaScript `args.indexOf(x)`. -/
def jsIndexOf {α : Type} [DecidableEq α] (args : List α) (x : α) : ℤ :=
  jsIndexOfAux x args 0

/-- The `elements` shrinker (`primitive.js` lines 231–238): no candidates
when `args.indexOf(x) <= 0` (absent gives `-1`), otherwise
`args.slice(0, idx)`, the elements preceding the first occurrence. -/
def elemShrink {α : Type} [DecidableEq α] (args : List α) : Shrinker α := fun x =>
  let idx := jsIndexOf args x
  if idx ≤ 0 then [] else args.take idx.toNat

/-- `elements(args)` (`primitive.js` lines 222–241): asserts the list is
non-empty (modelled by `Except.error` carrying the assertion message),
then samples a uniformly random index. -/
def elements {α : Type} [DecidableEq α] (args : List α) : Except String (Arbitrary ℕ α) :=
  if h : args.length = 0 then Except.error "elements: at least one parameter expected"
  else Except.ok
    { generator := fun _ r =>
        args.get ⟨(random 0 ((args.length : ℤ) - 1) r).toNat, by
          have hpos : 0 < args.length := Nat.pos_of_ne_zero h
          have hL : (0 : ℤ) < (args.length : ℤ) := by exact_mod_cast hpos
          have h2 : ((args.length : ℤ) - 1) - 0 + 1 = (args.length : ℤ) := by ring
          unfold random
          rw [h2, zero_add]
          have h0 : (0 : ℤ) ≤ (r : ℤ) % (args.length : ℤ) := Int.emod_nonneg _ (by omega)
          have h1 : (r : ℤ) % (args.length : ℤ) < (args.length : ℤ) :=
            Int.emod_lt_of_pos _ hL
          omega⟩,
      shrink := elemShrink args }

/-! ### Helper lemmas -/

theorem random_bounds (lo hi : ℤ) (r : ℕ) (h : lo ≤ hi) :
    lo ≤ random lo hi r ∧ random lo hi r ≤ hi := by
  unfold random
  have hm : (0 : ℤ) < hi - lo + 1 := by omega
  have h1 : (0 : ℤ) ≤ (r : ℤ) % (hi - lo + 1) := Int.emod_nonneg _ (by omega)
  have h2 : (r : ℤ) % (hi - lo + 1) < hi - lo + 1 := Int.emod_lt_of_pos _ hm
  constructor <;> linarith

theorem random_hits (lo hi v : ℤ) (h1 : lo ≤ v) (h2 : v ≤ hi) :
    random lo hi ((v - lo).toNat) = v := by
  unfold random
  rw [Int.toNat_of_nonneg (by omega), Int.emod_eq_of_lt (by omega) (by omega)]
  ring

theorem integerShrinkLoop_mem :
    ∀ (n i j k : ℕ) (c : ℤ), i - j ≤ n → c ∈ integerShrinkLoop i j k →
      ∃ m : ℕ, m < i ∧ (c = (m : ℤ) ∨ c = -(m : ℤ)) := by
  intro n
  induction n with
  | zero =>
    intro i j k c hle hc
    rw [integerShrinkLoop, dif_neg (by omega)] at hc
    simp at hc
  | succ n ih =>
    intro i j k c hle hc
    rw [integerShrinkLoop] at hc
    by_cases h : j < i
    · rw [dif_pos h] at hc
      rcases List.mem_cons.mp hc with rfl | hc2
      · exact ⟨j, h, Or.inl rfl⟩
      rcases List.mem_cons.mp hc2 with rfl | hc3
      · exact ⟨j, h, Or.inr rfl⟩
      · have hmax : 1 ≤ max (div2 k) 1 := Nat.le_max_right _ _
        exact ih i _ _ c (by omega) hc3
    · rw [dif_neg h] at hc
      simp at hc

theorem natShrinkLoop_mem :
    ∀ (n i j k c : ℕ), i - j ≤ n → c ∈ natShrinkLoop i j k → j ≤ c ∧ c < i := by
  intro n
  induction n with
  | zero =>
    intro i j k c hle hc
    rw [natShrinkLoop, dif_neg (by omega)] at hc
    simp at hc
  | succ n ih =>
    intro i j k c hle hc
    rw [natShrinkLoop] at hc
    by_cases h : j < i
    · rw [dif_pos h] at hc
      rcases List.mem_cons.mp hc with rfl | hc2
      · omega
      · have hmax : 1 ≤ max (div2 k) 1 := Nat.le_max_right _ _
        have := ih i _ _ c (by omega) hc2
        omega
    · rw [dif_neg h] at hc
      simp at hc

theorem natShrinkLoop_head (i j k : ℕ) (h : j < i) : j ∈ natShrinkLoop i j k := by
  rw [natShrinkLoop, dif_pos h]
  exact List.mem_cons_self _ _

theorem jsIndexOfAux_not_mem {α : Type} [DecidableEq α] (x : α) :
    ∀ (l : List α) (n : ℤ), x ∉ l → jsIndexOfAux x l n = -1 := by
  intro l
  induction l with
  | nil => intro n _; rfl
  | cons a rest ih =>
    intro n hx
    have hax : ¬ a = x := fun hh => hx (by rw [hh]; exact List.mem_cons_self _ _)
    simp only [jsIndexOfAux]
    rw [if_neg hax]
    exact ih _ (fun hm => hx (List.mem_cons_of_mem a hm))

theorem jsIndexOfAux_append {α : Type} [DecidableEq α] (x : α) :
    ∀ (pre post : List α) (n : ℤ), x ∉ pre →
      jsIndexOfAux x (pre ++ x :: post) n = n + pre.length := by
  intro pre
  induction pre with
  | nil =>
    intro post n _
    simp [jsIndexOfAux]
  | cons a rest ih =>
    intro post n hx
    have hax : ¬ a = x := fun hh => hx (by rw [hh]; exact List.mem_cons_self _ _)
    show jsIndexOfAux x (a :: (rest ++ x :: post)) n = n + ((a :: rest).length : ℤ)
    simp only [jsIndexOfAux]
    rw [if_neg hax, ih post (n + 1) (fun hm => hx (List.mem_cons_of_mem a hm))]
    simp only [List.length_cons]
    push_cast
    ring

theorem ratTrunc_intCast (n : ℤ) : ratTrunc ((n : ℚ)) = n := by
  unfold ratTrunc
  by_cases h : (0 : ℚ) ≤ (n : ℚ)
  · rw [if_pos h, Int.floor_intCast]
  · rw [if_neg h, Int.ceil_intCast]

theorem ratTrunc_abs_le (q : ℚ) : |((ratTrunc q : ℤ) : ℚ)| ≤ |q| := by
  unfold ratTrunc
  by_cases h : 0 ≤ q
  · rw [if_pos h]
    have h1 : (0 : ℤ) ≤ ⌊q⌋ := Int.floor_nonneg.mpr h
    have h1q : (0 : ℚ) ≤ ((⌊q⌋ : ℤ) : ℚ) := by exact_mod_cast h1
    rw [abs_of_nonneg h, abs_of_nonneg h1q]
    exact Int.floor_le q
  · have hq : q ≤ 0 := le_of_not_le h
    rw [if_neg h]
    have h1 : ⌈q⌉ ≤ 0 := Int.ceil_le.mpr (by exact_mod_cast hq)
    have h1q : ((⌈q⌉ : ℤ) : ℚ) ≤ 0 := by exact_mod_cast h1
    rw [abs_of_nonpos hq, abs_of_nonpos h1q]
    exact neg_le_neg (Int.le_ceil q)

theorem timeClip_roundtrip (q : ℚ) : jsDateOfNum (jsGetTime (timeClip q)) = timeClip q := by
  by_cases h : |q| ≤ 8640000000000000
  · have hcl : timeClip q = some (ratTrunc q) := by rw [timeClip, if_pos h]
    rw [hcl]
    show timeClip ((ratTrunc q : ℤ) : ℚ) = some (ratTrunc q)
    have h2 : |((ratTrunc q : ℤ) : ℚ)| ≤ 8640000000000000 := le_trans (ratTrunc_abs_le q) h
    rw [timeClip, if_pos h2, ratTrunc_intCast]
  · have hcl : timeClip q = none := by rw [timeClip, if_neg h]
    rw [hcl]
    rfl

theorem integer2_abs_bound (a b : ℤ) (size r : ℕ) (h : a < b) :
    ∃ x : ℤ, (numeric2 integerImpl a b).generator size r = |x| + a ∧ |x| ≤ b - a := by
  refine ⟨integerGenerator (some (b - a)) size r, rfl, ?_⟩
  have hspan : ¬ (b - a = 0) := by omega
  show |integerGenerator (some (b - a)) size r| ≤ b - a
  simp only [integerGenerator, jsOr]
  rw [if_neg hspan]
  have hb := random_bounds (-(b - a)) (b - a) r (by omega)
  rw [abs_le]
  exact ⟨hb.1, hb.2⟩

/-! ### Claims -/

/-- C2: for every integer `i`, the integer shrinker returns a finite list in
which every candidate `c` satisfies `|c| ≤ |i|` and in which `i` itself never
appears; when `|i| = 0` the list is empty, and otherwise it starts with `0`
followed by the loop emitting pairs `+j, -j` of magnitudes starting at
`|i|/2` and advancing by a step halved each iteration and floored at 1,
until `j` reaches `|i|`. -/
theorem integerShrink_spec (i : ℤ) :
    (∀ c ∈ integerShrink i, |c| ≤ |i|) ∧
    i ∉ integerShrink i ∧
    (i.natAbs = 0 → integerShrink i = []) ∧
    (i.natAbs ≠ 0 →
      integerShrink i =
        0 :: integerShrinkLoop i.natAbs (div2 i.natAbs) (max (div2 i.natAbs) 1)) := by
  by_cases hi : i = 0
  · subst hi
    refine ⟨?_, ?_, ?_, ?_⟩ <;> simp [integerShrink]
  · have ha : i.natAbs ≠ 0 := by simpa using hi
    have hunfold : integerShrink i =
        0 :: integerShrinkLoop i.natAbs (div2 i.natAbs) (max (div2 i.natAbs) 1) := by
      simp [integerShrink, ha]
    have habs : ∀ c ∈ integerShrinkLoop i.natAbs (div2 i.natAbs) (max (div2 i.natAbs) 1),
        |c| < (i.natAbs : ℤ) := by
      intro c hc
      obtain ⟨m, hm, hcm⟩ :=
        integerShrinkLoop_mem i.natAbs i.natAbs (div2 i.natAbs) (max (div2 i.natAbs) 1) c
          (Nat.sub_le _ _) hc
      have hmi : (m : ℤ) < (i.natAbs : ℤ) := by exact_mod_cast hm
      rcases hcm with rfl | rfl
      · rw [abs_of_nonneg (by positivity)]
        exact hmi
      · rw [abs_neg, abs_of_nonneg (by positivity)]
        exact hmi
    refine ⟨?_, ?_, fun h0 => absurd h0 ha, fun _ => hunfold⟩
    · intro c hc
      rw [hunfold] at hc
      rcases List.mem_cons.mp hc with rfl | hc2
      · simpa using abs_nonneg i
      · rw [Int.abs_eq_natAbs i]
        exact le_of_lt (habs c hc2)
    · intro hmem
      rw [hunfold] at hmem
      rcases List.mem_cons.mp hmem with h0 | hm
      · exact hi h0
      · have := habs i hm
        rw [Int.abs_eq_natAbs i] at this
        exact absurd this (lt_irrefl _)

/-- C2 witness: concrete instantiation at `i = 7`. -/
theorem integerShrink_spec_witness :
    (7 : ℤ).natAbs ≠ 0 ∧ (7 : ℤ) ∉ integerShrink 7 ∧
      integerShrink 7 =
        0 :: integerShrinkLoop (7 : ℤ).natAbs (div2 (7 : ℤ).natAbs)
          (max (div2 (7 : ℤ).natAbs) 1) :=
  ⟨by decide, (integerShrink_spec 7).2.1, (integerShrink_spec 7).2.2.2 (by decide)⟩

/-- C3: for every natural `n`, the nat shrinker returns only non-negative
candidates, all strictly below `n` (so at least one candidate below `n`
exists whenever `n > 0`, namely `n/2`), the empty list when `n = 0`, and it
never emits a negated value (all candidates are naturals). -/
theorem natShrink_spec (n : ℕ) :
    (∀ c ∈ natShrink n, 0 ≤ (c : ℤ) ∧ c < n) ∧
    (0 < n → div2 n ∈ natShrink n ∧ div2 n < n) ∧
    natShrink 0 = [] := by
  refine ⟨?_, ?_, ?_⟩
  · intro c hc
    have := natShrinkLoop_mem n n (div2 n) (max (div2 n) 1) c (Nat.sub_le _ _) hc
    exact ⟨by positivity, this.2⟩
  · intro hn
    have hdiv : div2 n < n := Nat.div_lt_self hn (by norm_num)
    exact ⟨natShrinkLoop_head n (div2 n) (max (div2 n) 1) hdiv, hdiv⟩
  · show natShrinkLoop 0 (div2 0) (max (div2 0) 1) = []
    rw [natShrinkLoop, dif_neg (by omega)]

/-- C3 witness: concrete instantiation at `n = 10`. -/
theorem natShrink_spec_witness :
    0 < 10 ∧ div2 10 ∈ natShrink 10 ∧ div2 10 < 10 :=
  ⟨by decide, ((natShrink_spec 10).2.1 (by decide)).1, ((natShrink_spec 10).2.1 (by decide)).2⟩

/-- C4: for every rational `x` (modelling a float), the number shrinker
yields exactly `[0, x/2, -x/2]` when `|x| > 1e-6`, and yields no candidates
when `|x| ≤ 1e-6`. -/
theorem numberShrink_spec (x : ℚ) :
    (|x| > 1 / 1000000 → numberShrink x = [0, x / 2, -x / 2]) ∧
    (|x| ≤ 1 / 1000000 → numberShrink x = []) := by
  constructor
  · intro h
    unfold numberShrink
    rw [if_pos h]
  · intro h
    unfold numberShrink
    rw [if_neg (not_lt.mpr h)]

/-- C4 witness: concrete instantiations at `x = 1` and `x = 0`. -/
theorem numberShrink_spec_witness :
    |(1 : ℚ)| > 1 / 1000000 ∧ numberShrink 1 = [0, 1 / 2, -1 / 2] ∧
      |(0 : ℚ)| ≤ 1 / 1000000 ∧ numberShrink 0 = [] :=
  ⟨by norm_num, (numberShrink_spec 1).1 (by norm_num), by norm_num,
    (numberShrink_spec 0).2 (by norm_num)⟩

/-- C10: although `to(x) = |x| + minsize` is not injective on the raw
symmetric domain, the round trip `to(from(u)) = u` holds exactly for every
`u ≥ minsize`, and every value `to(x)` reachable from generation satisfies
`to(x) ≥ minsize`, so the isomap invariant holds on all reachable values. -/
theorem numericTo_from_roundtrip {R : Type} [LinearOrderedCommRing R] (minsize u : R)
    (h : minsize ≤ u) :
    numericTo minsize (numericFrom minsize u) = u ∧
      ∀ x : R, minsize ≤ numericTo minsize x := by
  constructor
  · unfold numericTo numericFrom
    rw [abs_of_nonneg (sub_nonneg.mpr h)]
    ring
  · intro x
    unfold numericTo
    exact le_add_of_nonneg_left (abs_nonneg x)

/-- C10 witness: concrete instantiation at `minsize = 3`, `u = 7` over `ℤ`. -/
theorem numericTo_from_roundtrip_witness :
    (3 : ℤ) ≤ 7 ∧ (numericTo (3 : ℤ) (numericFrom 3 7) = 7 ∧
      ∀ x : ℤ, 3 ≤ numericTo 3 x) :=
  ⟨by decide, numericTo_from_roundtrip 3 7 (by decide)⟩

/-- C1 (amended): for two-argument calls `integer(minsize, maxsize)` with
`minsize < maxsize`, every generated value has the form `minsize + |x|` for a
raw value `x` with `|x| ≤ span = maxsize - minsize`, hence lies in
`[minsize, minsize + span]`; in particular `integer(10, 20)` always yields a
value in `[10, 20]`, hence in `[10, 30]`. -/
theorem integer_two_arg_range (minsize maxsize : ℤ) (size r : ℕ) (h : minsize < maxsize) :
    (∃ x : ℤ, (numeric2 integerImpl minsize maxsize).generator size r = |x| + minsize ∧
        |x| ≤ maxsize - minsize) ∧
    minsize ≤ (numeric2 integerImpl minsize maxsize).generator size r ∧
    (numeric2 integerImpl minsize maxsize).generator size r ≤ minsize + (maxsize - minsize) ∧
    10 ≤ (numeric2 integerImpl 10 20).generator size r ∧
    (numeric2 integerImpl 10 20).generator size r ≤ 30 := by
  obtain ⟨x, hx, hxb⟩ := integer2_abs_bound minsize maxsize size r h
  obtain ⟨y, hy, hyb⟩ := integer2_abs_bound 10 20 size r (by omega)
  have hax := abs_nonneg x
  have hay := abs_nonneg y
  refine ⟨⟨x, hx, hxb⟩, ?_, ?_, ?_, ?_⟩
  · rw [hx]; linarith
  · rw [hx]; linarith
  · rw [hy]; linarith
  · rw [hy]; linarith

/-- C1 counterexample: the claim as stated quantifies over every
two-argument call, but with equal endpoints (`span = 0`) the falsy-or makes
the raw generator unbounded by the caller: `integer(5, 5)` at ambient size 3
and seed 1 yields 7, outside `[minsize, minsize + span] = [5, 5]`. -/
theorem integer_two_arg_span_zero_cex :
    (numeric2 integerImpl 5 5).generator 3 1 = 7 ∧
      ¬ (numeric2 integerImpl 5 5).generator 3 1 ≤ 5 + (5 - 5) := by
  constructor <;> decide

/-- C1 witness: concrete instantiation at `minsize = 10`, `maxsize = 20`,
ambient size 3, seed 1. -/
theorem integer_two_arg_range_witness :
    (10 : ℤ) < 20 ∧
      ((∃ x : ℤ, (numeric2 integerImpl 10 20).generator 3 1 = |x| + 10 ∧ |x| ≤ 20 - 10) ∧
        10 ≤ (numeric2 integerImpl 10 20).generator 3 1 ∧
        (numeric2 integerImpl 10 20).generator 3 1 ≤ 10 + (20 - 10) ∧
        10 ≤ (numeric2 integerImpl 10 20).generator 3 1 ∧
        (numeric2 integerImpl 10 20).generator 3 1 ≤ 30) :=
  ⟨by decide, integer_two_arg_range 10 20 3 1 (by decide)⟩

/-- C5: `elements` with an empty candidate list fails immediately with the
descriptive assertion message, and with a non-empty list it always succeeds.
All other modelled operations are total functions and cannot fail. -/
theorem elements_empty_spec {α : Type} [DecidableEq α] (args : List α) :
    (args = [] → elements args = Except.error "elements: at least one parameter expected") ∧
    (args ≠ [] → ∃ arb, elements args = Except.ok arb) := by
  constructor
  · rintro rfl
    rfl
  · intro hne
    have h : ¬ args.length = 0 := by simpa [List.length_eq_zero] using hne
    unfold elements
    rw [dif_neg h]
    exact ⟨_, rfl⟩

/-- C5 witness: concrete instantiations at `[]` and `[42]` over `ℤ`. -/
theorem elements_empty_spec_witness :
    elements ([] : List ℤ) = Except.error "elements: at least one parameter expected" ∧
      ∃ arb, elements [(42 : ℤ)] = Except.ok arb :=
  ⟨(elements_empty_spec []).1 rfl, (elements_empty_spec [42]).2 (by decide)⟩

/-- C6: the `elements(list)` shrinker returns no candidates when the value is
absent from the list or its first index is 0, and otherwise returns exactly
the elements preceding the first occurrence, in original order; in
particular shrinking the last of three distinct elements yields the first
two and shrinking the first yields nothing. -/
theorem elements_shrink_spec {α : Type} [DecidableEq α] (args pre post : List α) (v : α) :
    (v ∉ args → elemShrink args v = []) ∧
    (args = pre ++ v :: post → v ∉ pre → elemShrink args v = pre) ∧
    elemShrink [10, 20, 30] (30 : ℤ) = [10, 20] ∧
    elemShrink [10, 20, 30] (10 : ℤ) = [] := by
  refine ⟨?_, ?_, by decide, by decide⟩
  · intro hab
    have hidx : jsIndexOf args v = -1 := jsIndexOfAux_not_mem v args 0 hab
    unfold elemShrink
    rw [hidx]
    rfl
  · rintro rfl hpre
    have hidx : jsIndexOf (pre ++ v :: post) v = (pre.length : ℤ) := by
      have haux := jsIndexOfAux_append v pre post 0 hpre
      unfold jsIndexOf
      rw [haux, zero_add]
    by_cases hp : pre = []
    · subst hp
      unfold elemShrink
      rw [hidx]
      rfl
    · have hlen : 0 < pre.length := List.length_pos.mpr hp
      have hnle : ¬ (jsIndexOf (pre ++ v :: post) v ≤ 0) := by
        rw [hidx]
        exact not_le.mpr (by exact_mod_cast hlen)
      unfold elemShrink
      rw [if_neg hnle, hidx]
      rw [Int.toNat_natCast]
      exact List.take_left pre (v :: post)

/-- C6 witness: concrete instantiation with `args = [1, 2]`, `pre = [1]`,
`post = []`, `v = 2` over `ℤ`. -/
theorem elements_shrink_spec_witness :
    ([(1 : ℤ), 2] = [1] ++ 2 :: []) ∧ (2 : ℤ) ∉ [(1 : ℤ)] ∧
      elemShrink [(1 : ℤ), 2] 2 = [1] :=
  ⟨rfl, by decide, (elements_shrink_spec [1, 2] [1] [] 2).2.1 rfl (by decide)⟩

/-- C7: for the bounded datetime arbitrary, converting any generated date to
its numeric epoch-millisecond form and back reproduces exactly the same date
value, for every pair of endpoints, every ambient size and every draw. -/
theorem datetime_bounded_roundtrip (f t : ℤ) (size : ℕ) (r : ℚ) :
    jsDateOfNum (jsGetTime (datetimeBoundedGenerator f t size r)) =
      datetimeBoundedGenerator f t size r :=
  timeClip_roundtrip ((numeric2 numberImpl (f : ℚ) (t : ℚ)).generator size r)

/-- C8 counterexample: the unbounded default datetime is not a pure function
of the ambient size hint: at size 1 the admissible draw `1/2` produces the
date `new Date(datetimeConst)`, not the claimed
`new Date(datetimeConst + size * 768000000)`. -/
theorem datetime_default_size_cex :
    (0 : ℚ) ≤ 1 / 2 ∧ (1 : ℚ) / 2 ≤ 1 ∧
      datetimeDefaultGenerator 1 (1 / 2) ≠ timeClip ((datetimeConst : ℚ) + 1 * 768000000) := by
  refine ⟨by norm_num, by norm_num, ?_⟩
  show jsToDate (randomNumber (-((1 : ℕ) : ℚ)) ((1 : ℕ) : ℚ) (1 / 2) * 768000000 +
      (datetimeConst : ℚ)) ≠ timeClip ((datetimeConst : ℚ) + 1 * 768000000)
  unfold randomNumber jsToDate timeClip ratTrunc datetimeConst
  norm_num

/-- C8 (amended): the unbounded default datetime maps the value `x` drawn by
the default number arbitrary (so `|x| ≤ size` for admissible draws) through
the fixed affine formula `new Date(x * 768000000 + datetimeConst)` with the
exact constant `datetimeConst = 1416499879495`, and its shrinker is the
no-op shrinker. -/
theorem datetime_default_spec (size : ℕ) (r : ℚ) (h0 : 0 ≤ r) (h1 : r ≤ 1) :
    datetimeDefaultGenerator size r =
        jsToDate (numberGenerator none size r * 768000000 + (datetimeConst : ℚ)) ∧
    datetimeConst = 1416499879495 ∧
    |numberGenerator none size r| ≤ (size : ℚ) ∧
    (∀ d, datetimeDefaultShrink d = []) := by
  refine ⟨rfl, rfl, ?_, fun _ => rfl⟩
  show |randomNumber (-((size : ℕ) : ℚ)) ((size : ℕ) : ℚ) r| ≤ (size : ℚ)
  unfold randomNumber
  have hs : (0 : ℚ) ≤ (size : ℚ) := by positivity
  rw [abs_le]
  constructor <;> nlinarith

/-- C8 witness: concrete instantiation at size 1, draw `1/2`. -/
theorem datetime_default_spec_witness :
    (0 : ℚ) ≤ 1 / 2 ∧ (1 : ℚ) / 2 ≤ 1 ∧
      (datetimeDefaultGenerator 1 (1 / 2) =
          jsToDate (numberGenerator none 1 (1 / 2) * 768000000 + (datetimeConst : ℚ)) ∧
        datetimeConst = 1416499879495 ∧
        |numberGenerator none 1 (1 / 2)| ≤ ((1 : ℕ) : ℚ) ∧
        ∀ d, datetimeDefaultShrink d = []) :=
  ⟨by norm_num, by norm_num, datetime_default_spec 1 (1 / 2) (by norm_num) (by norm_num)⟩

/-- C9: a caller-fixed maximum size of 0 is silently ignored through the
falsy-or `maxsize || size`: `nat(0)` coincides with the unbounded form and
can generate any value of `[0, size]`, `integer(0)` generates over
`[-size, size]` and reaches every value of it, and the two-argument forms
`integer(m, m)` and `number(m, m)` with equal endpoints can exceed the
claimed bound `m` whenever the ambient size is positive. -/
theorem zero_maxsize_ignored (size : ℕ) (m : ℤ) (mq : ℚ) :
    (∀ r, natGenerator (some 0) size r = random 0 (size : ℤ) r) ∧
    (∀ v : ℤ, 0 ≤ v → v ≤ (size : ℤ) → ∃ r, natGenerator (some 0) size r = v) ∧
    (∀ r, integerGenerator (some 0) size r = random (-(size : ℤ)) (size : ℤ) r) ∧
    (∀ v : ℤ, -(size : ℤ) ≤ v → v ≤ (size : ℤ) → ∃ r, integerGenerator (some 0) size r = v) ∧
    (0 < size → ∃ r, (numeric2 integerImpl m m).generator size r = m + (size : ℤ)) ∧
    (0 < size → ∃ r : ℚ, 0 ≤ r ∧ r ≤ 1 ∧
      (numeric2 numberImpl mq mq).generator size r = mq + (size : ℚ)) := by
  refine ⟨fun r => rfl, ?_, fun r => rfl, ?_, ?_, ?_⟩
  · intro v h1 h2
    refine ⟨(v - 0).toNat, ?_⟩
    show random 0 (jsOr (some 0) (size : ℤ)) (v - 0).toNat = v
    rw [show jsOr (some 0) ((size : ℕ) : ℤ) = (size : ℤ) from rfl]
    exact random_hits 0 (size : ℤ) v h1 h2
  · intro v h1 h2
    refine ⟨(v - (-(size : ℤ))).toNat, ?_⟩
    show random (-(jsOr (some 0) (size : ℤ))) (jsOr (some 0) (size : ℤ))
        (v - (-(size : ℤ))).toNat = v
    rw [show jsOr (some 0) ((size : ℕ) : ℤ) = (size : ℤ) from rfl]
    exact random_hits (-(size : ℤ)) (size : ℤ) v h1 h2
  · intro hs
    refine ⟨((size : ℤ) - (-(size : ℤ))).toNat, ?_⟩
    show numericTo m (integerGenerator (some (m - m)) size (((size : ℤ) - (-(size : ℤ))).toNat))
        = m + (size : ℤ)
    rw [sub_self]
    show numericTo m (random (-(jsOr (some 0) (size : ℤ))) (jsOr (some 0) (size : ℤ))
        (((size : ℤ) - (-(size : ℤ))).toNat)) = m + (size : ℤ)
    rw [show jsOr (some 0) ((size : ℕ) : ℤ) = (size : ℤ) from rfl]
    rw [random_hits (-(size : ℤ)) (size : ℤ) (size : ℤ) (by omega) le_rfl]
    unfold numericTo
    rw [abs_of_nonneg (by positivity)]
    ring
  · intro hs
    refine ⟨1, by norm_num, le_rfl, ?_⟩
    show numericTo mq (numberGenerator (some (mq - mq)) size 1) = mq + (size : ℚ)
    rw [sub_self]
    show numericTo mq (randomNumber (-(jsOr (some 0) ((size : ℕ) : ℚ)))
        (jsOr (some 0) ((size : ℕ) : ℚ)) 1) = mq + (size : ℚ)
    rw [show jsOr (some 0) ((size : ℕ) : ℚ) = ((size : ℕ) : ℚ) from rfl]
    have hr : randomNumber (-((size : ℕ) : ℚ)) ((size : ℕ) : ℚ) 1 = ((size : ℕ) : ℚ) := by
      unfold randomNumber
      ring
    rw [hr]
    unfold numericTo
    rw [abs_of_nonneg (by positivity)]
    ring

/-- C9 witness: concrete instantiation at ambient size 2, `m = 5`. -/
theorem zero_maxsize_ignored_witness :
    (0 : ℤ) ≤ 2 ∧ (2 : ℤ) ≤ ((2 : ℕ) : ℤ) ∧ (∃ r, natGenerator (some 0) 2 r = 2) ∧
      0 < 2 ∧ (∃ r, (numeric2 integerImpl 5 5).generator 2 r = 5 + ((2 : ℕ) : ℤ)) :=
  ⟨by decide, by decide, (zero_maxsize_ignored 2 5 5).2.1 2 (by decide) (by decide),
    by decide, (zero_maxsize_ignored 2 5 5).2.2.2.2.1 (by decide)⟩
